import Mathlib

/-!
Shallow embedding of the git-status parsing core in `src/cxx/src/lib.cc`
(namespace `gstat`).  Strings are modelled by Lean `String` / `List Char`;
fallible C++ code (functions that may throw `std::runtime_error`,
`std::out_of_range` or `std::invalid_argument`) is modelled with
`Except Err`.  Files on disk are modelled by `Option String`: `none` means
the file does not exist / cannot be opened, `some c` means it opens and its
full content is `c`.
-/

deriving instance DecidableEq for Except

namespace Gstat

/-- Error kinds of the tool.  The C++ code throws exceptions; the spec
groups them as NotFound (no repository found), IOError (a required file
cannot be read), ParseError (`std::stoi` failures: invalid argument or
out of range) and, additionally, `outOfRange` models
`std::string::at` / `substr` bounds violations. -/
inductive Err where
  | notFound
  | ioError
  | parseError
  | outOfRange
deriving Repr, DecidableEq

/-- `GBranch` from lib.h (header not in src/; fields modelled from the
spec and from the uses in lib.cc).  The C++ field named local is an
integer rendered 0/1; here `localFlag : Bool` with `true` for 1. -/
structure GBranch where
  branch : String := ""
  upstream : String := ""
  localFlag : Bool := true
deriving Repr, DecidableEq

/-- `GRemote` from lib.h (header not in src/; modelled from the spec:
ahead/behind integer counts, defaulting to 0).  `Int` because the values
come from `std::stoi`. -/
structure GRemote where
  ahead : Int := 0
  behind : Int := 0
deriving Repr, DecidableEq

/-- `GStats` from lib.h (header not in src/; modelled from the spec:
four counters starting at 0). -/
structure GStats where
  staged : Nat := 0
  conflicts : Nat := 0
  changed : Nat := 0
  untracked : Nat := 0
deriving Repr, DecidableEq

/-- C `isspace` for the default locale. -/
def wsC (c : Char) : Bool :=
  c == ' ' || c == '\t' || c == '\n' || c == '\x0d' || c == '\x0b' || c == '\x0c'

/-- `std::string::find(needle)`: index of the first occurrence of
`needle` in `hay`, or `none` for `npos`. -/
def findSub (needle : List Char) : List Char → Option Nat
  | [] => if needle.isPrefixOf ([] : List Char) then some 0 else none
  | h :: t =>
    if needle.isPrefixOf (h :: t) then some 0
    else (findSub needle t).map (· + 1)

/-- `std::string::rfind(needle)`: index of the last occurrence of
`needle` in `hay`, or `none` for `npos`. -/
def rfindSub (needle : List Char) : List Char → Option Nat
  | [] => if needle.isPrefixOf ([] : List Char) then some 0 else none
  | h :: t =>
    match rfindSub needle t with
    | some i => some (i + 1)
    | none => if needle.isPrefixOf (h :: t) then some 0 else none

/-- `s.find(needle) != std::string::npos`. -/
def containsSub (needle hay : List Char) : Bool :=
  (findSub needle hay).isSome

/-- `operator>>` extraction of one whitespace-delimited token from a
stream whose remaining content is `c` (skips leading whitespace, then
takes until whitespace; an empty extraction leaves the target string
empty, matching a cleared / default-constructed `std::string`). -/
def firstToken (c : String) : String :=
  ⟨(c.data.dropWhile wsC).takeWhile (fun c => !wsC c)⟩

/-- Value of a list of decimal digit characters. -/
def digitsToNat (l : List Char) : Nat :=
  l.foldl (fun a c => a * 10 + (c.toNat - '0'.toNat)) 0

/-- Digit phase of `std::stoi`: a non-empty run of decimal digits,
negated when a minus sign was seen; `none` models both
`std::invalid_argument` (no digits) and `std::out_of_range` (outside
the 32-bit int range). -/
def stoiDigits (neg : Bool) (l : List Char) : Option Int :=
  let ds := l.takeWhile Char.isDigit
  if ds = [] then none
  else
    let v : Int := (if neg then -1 else 1) * (digitsToNat ds : Int)
    if v < -2147483648 ∨ 2147483647 < v then none else some v

/-- `std::stoi`: skip C whitespace, an optional sign, then digits. -/
def stoiModel (l : List Char) : Option Int :=
  match l.dropWhile wsC with
  | [] => stoiDigits false []
  | c :: r =>
    if c = '-' then stoiDigits true r
    else if c = '+' then stoiDigits false r
    else stoiDigits false (c :: r)

/-- The character-accumulation loop of `parse_remote` (lib.cc lines
237-243): move the first character into `part` unconditionally, then
keep moving characters while the next one is a digit.  Returns
`(part, rest)`; on empty input the loop body never runs. -/
def accum : List Char → List Char × List Char
  | [] => ([], [])
  | c :: rest => (c :: rest.takeWhile Char.isDigit, rest.dropWhile Char.isDigit)

/-- The header content `parse_branch` works on: `branch_line.substr(3)`
with a trailing `" ["`-bracket (last occurrence) stripped
(lib.cc lines 182-189). -/
def headerContent (line : String) : List Char :=
  let temp0 := line.data.drop 3
  match rfindSub (" [".data) temp0 with
  | some i => temp0.take i
  | none => temp0

/-- `gstat::parse_branch` (lib.cc lines 181-213).  `head_file` is the
content of the HEAD file (`none`: unreadable).  `substr(3)` throws when
the line is shorter than 3 characters. -/
def parse_branch (line : String) (head_file : Option String) : Except Err GBranch :=
  if line.data.length < 3 then .error .outOfRange
  else
    let temp := headerContent line
    match findSub ("...".data) temp with
    | some i =>
      .ok { branch := ⟨temp.take i⟩, upstream := ⟨temp.drop (i + 3)⟩, localFlag := false }
    | none =>
      if containsSub ("(no branch)".data) temp then
        match head_file with
        | some c => .ok { branch := firstToken c, upstream := "", localFlag := false }
        | none => .error .ioError
      else if containsSub ("Initial commit".data) temp ||
              containsSub ("No commits yet".data) temp then
        let j : Nat :=
          match rfindSub [' '] temp with
          | some k => k + 1
          | none => 0
        .ok { branch := ⟨temp.drop j⟩, upstream := "", localFlag := true }
      else
        .ok { branch := ⟨temp⟩, upstream := "", localFlag := true }

/-- `gstat::parse_remote` (lib.cc lines 220-258).  Returns the default
`⟨0, 0⟩` when no `" ["` occurs or the line does not end in a closing
bracket; otherwise works on the substring starting two characters past
the first `" ["` (which still carries the final closing bracket). -/
def parse_remote (line : String) : Except Err GRemote :=
  let l := line.data
  match findSub (" [".data) l with
  | none => .ok {}
  | some i =>
    if l.getLast? ≠ some ']' then .ok {}
    else
      let temp := l.drop (i + 2)
      let step1 : Except Err (Int × List Char) :=
        if temp ≠ [] ∧ containsSub ("ahead".data) temp then
          let pr := accum (temp.drop 6)
          match stoiModel pr.1 with
          | some a => .ok (a, pr.2)
          | none => .error .parseError
        else .ok (0, temp)
      match step1 with
      | .error e => .error e
      | .ok (a, t1) =>
        let t2 : List Char :=
          match t1 with
          | ',' :: r => r
          | _ => t1
        if t2 ≠ [] ∧ containsSub ("behind".data) t2 then
          match stoiModel (t2.drop 7) with
          | some b => .ok { ahead := a, behind := b }
          | none => .error .parseError
        else .ok { ahead := a, behind := 0 }

/-- Modelled from the spec: `hash_two_places` and the `HASH_CASE_*`
constants live in src/const.h, which is not under src/.  Per the spec
(§4.4) the switch recognises exactly the seven conflict pairs
AA, AU, DD, DU, UA, UD, UU of the first two characters of a line. -/
def isConflictCode (c0 c1 : Char) : Bool :=
  (c0 == 'A' && c1 == 'A') || (c0 == 'A' && c1 == 'U') ||
  (c0 == 'D' && c1 == 'D') || (c0 == 'D' && c1 == 'U') ||
  (c0 == 'U' && c1 == 'A') || (c0 == 'U' && c1 == 'D') ||
  (c0 == 'U' && c1 == 'U')

/-- The first switch of the staged/changed phase (lib.cc lines 284-291):
index-column codes that count as staged. -/
def stagedSwitch (c : Char) : Bool :=
  c == 'A' || c == 'C' || c == 'D' || c == 'M' || c == 'R'

/-- The second switch of the staged/changed phase (lib.cc lines
293-299): worktree-column codes that count as changed. -/
def changedSwitch (c : Char) : Bool :=
  c == 'C' || c == 'D' || c == 'M' || c == 'R'

/-- One iteration of the `parse_stats` loop (lib.cc lines 266-300):
`at(0)` of an empty line throws; a line starting with a question mark
counts as untracked and is not inspected further; otherwise both of the
first two characters are read (so a one-character line throws), the
conflict table is consulted first, and otherwise the two independent
switches update staged and changed. -/
def classify (s : GStats) (l : String) : Except Err GStats :=
  match l.data with
  | [] => .error .outOfRange
  | c0 :: rest =>
    if c0 = '?' then .ok { s with untracked := s.untracked + 1 }
    else
      match rest with
      | [] => .error .outOfRange
      | c1 :: _ =>
        if isConflictCode c0 c1 then .ok { s with conflicts := s.conflicts + 1 }
        else
          let s1 := if stagedSwitch c0 then { s with staged := s.staged + 1 } else s
          let s2 := if changedSwitch c1 then { s1 with changed := s1.changed + 1 } else s1
          .ok s2

/-- The iterator loop of `parse_stats`, visiting the lines in order and
aborting at the first exception. -/
def statsLoop (s : GStats) : List String → Except Err GStats
  | [] => .ok s
  | l :: rest =>
    match classify s l with
    | .error e => .error e
    | .ok s1 => statsLoop s1 rest

/-- `gstat::parse_stats` (lib.cc lines 263-303). -/
def parse_stats (lines : List String) : Except Err GStats :=
  statsLoop {} lines

/-- Splitting a character list at newline characters (the pieces, in
order; there is always at least one piece). -/
def splitNl (acc : List Char) : List Char → List String
  | [] => [⟨acc.reverse⟩]
  | c :: rest =>
    if c = '\n' then ⟨acc.reverse⟩ :: splitNl [] rest
    else splitNl (c :: acc) rest

/-- The sequence of lines `std::getline` successfully extracts from a
file whose content is `c`: the content split at newlines, except that
content ending in a newline yields no extra empty extraction. -/
def getlineLines (c : String) : List String :=
  let ps := splitNl [] c.data
  if ps.getLast? = some "" then ps.dropLast else ps

/-- The counting loop of `stash_count` (lib.cc lines 312-318): one per
extracted line that is not the empty string (no trimming). -/
def stashLoop (cnt : Nat) : List String → Nat
  | [] => cnt
  | b :: rest => stashLoop (if b ≠ "" then cnt + 1 else cnt) rest

/-- `gstat::stash_count` (lib.cc lines 308-322).  `stash_file` is the
content of logs/refs/stash (`none`: missing file, the stream is never
good, the count stays 0). -/
def stash_count (stash_file : Option String) : String :=
  match stash_file with
  | none => Nat.repr 0
  | some c => Nat.repr (stashLoop 0 (getlineLines c))

/-- `gstat::rebase_progress` (lib.cc lines 329-345): when both the
next and the last file under the rebase directory open, the result is
the first token of next, a slash, and the first token of last;
otherwise the initial "0" is returned. -/
def rebase_progress (next_file last_file : Option String) : String :=
  match next_file, last_file with
  | some n, some l => firstToken n ++ "/" ++ firstToken l
  | _, _ => "0"

/-- Modelled from the spec: `file_exists` lives in src/const.h, which is
not under src/; per the spec the merge flag is a bare existence check of
the merge marker file, never fatal. -/
def merge_flag (merge_file : Option String) : Bool :=
  merge_file.isSome

/-- The on-disk state `current_gitstatus` consults, after path
resolution: contents of the HEAD file, the stash log, the MERGE_HEAD
marker (existence only) and the next/last files of the rebase
directory.  `none` models a missing/unreadable file. -/
structure FS where
  head : Option String := none
  stashLog : Option String := none
  mergeHead : Option String := none
  rebaseNext : Option String := none
  rebaseLast : Option String := none

/-- Rendering of the boolean-like int fields (`std::to_string` of 0/1). -/
def bit (b : Bool) : String :=
  if b then "1" else "0"

/-- `gstat::current_gitstatus` (lib.cc lines 350-366), with path
resolution abstracted into `FS` (the derived file paths are fixed, so
only the file contents matter).  Accessing lines[0] of an empty vector
is undefined in C++; it is modelled as an error and every theorem below
uses a non-empty line list.  Note that the full line list - header
included - is passed on to `parse_stats`, exactly as in the source. -/
def current_gitstatus (fs : FS) (lines : List String) : Except Err String :=
  match lines with
  | [] => .error .outOfRange
  | line0 :: _ =>
    match parse_branch line0 fs.head with
    | .error e => .error e
    | .ok info =>
      match parse_remote line0 with
      | .error e => .error e
      | .ok remote =>
        match parse_stats lines with
        | .error e => .error e
        | .ok stats =>
          let stashes := stash_count fs.stashLog
          let merge := bit (merge_flag fs.mergeHead)
          let rebase := rebase_progress fs.rebaseNext fs.rebaseLast
          .ok (info.branch ++ " " ++ Int.repr remote.ahead ++ " " ++
               Int.repr remote.behind ++ " " ++ Nat.repr stats.staged ++ " " ++
               Nat.repr stats.conflicts ++ " " ++ Nat.repr stats.changed ++ " " ++
               Nat.repr stats.untracked ++ " " ++ stashes ++ " " ++
               bit info.localFlag ++ " " ++ info.upstream ++ " " ++
               merge ++ " " ++ rebase)

/-- Number of fields when a line is split at every space character:
one more than the number of space characters (so consecutive spaces
contribute empty fields, exactly like splitting on the single-character
separator). -/
def fieldCount (s : String) : Nat :=
  s.data.count ' ' + 1

/-- `gstat::find_git_root` (lib.cc lines 159-174), with the filesystem
abstracted to an existence predicate on paths and paths represented as
component lists below the filesystem root (`[]` is the root "/",
`List.dropLast` is `dirname`, appending ".git" is `join(cwd, git_d)`).
`none` models the thrown could-not-find exception (NotFound). -/
def fgrLoop (fs : List String → Bool) : List String → Option (List String)
  | [] => none
  | x :: rest =>
    let cwd := ((x :: rest) : List String).reverse
    if fs (cwd ++ [".git"]) then some (cwd ++ [".git"])
    else fgrLoop fs rest

/-- `gstat::find_git_root` (lib.cc lines 159-174), with the filesystem
abstracted to an existence predicate on paths and paths represented as
component lists below the filesystem root (`[]` is the root "/",
dropping the last component is `dirname`, appending ".git" is
`join(cwd, git_d)`).  The loop is phrased structurally on the reversed
component list, so that `dirname` is the tail.  `none` models the
thrown could-not-find exception (NotFound). -/
def find_git_root (fs : List String → Bool) (cwd : List String) : Option (List String) :=
  fgrLoop fs cwd.reverse

/-- Auxiliary for `chain`, on the reversed component list. -/
def chainRev : List String → List (List String)
  | [] => []
  | x :: rest => ((x :: rest) : List String).reverse :: chainRev rest

/-- The directories the walk of `find_git_root` examines, in order:
the start directory and its ancestors, stopping strictly before the
filesystem root (the root `[]` is never listed). -/
def chain (cwd : List String) : List (List String) :=
  chainRev cwd.reverse

/-- Specification-side search: the first directory of a candidate list
that contains an entry named ".git". -/
def firstGitDir (fs : List String → Bool) : List (List String) → Option (List String)
  | [] => none
  | d :: rest => if fs (d ++ [".git"]) then some d else firstGitDir fs rest

/-- Well-formed status line: non-empty, and of length at least 2 unless
it starts with a question mark (exactly the lines `parse_stats` can
process without an out-of-range access). -/
def wfLineB (l : String) : Bool :=
  match l.data with
  | [] => false
  | c :: rest => c == '?' || !rest.isEmpty

/-- A line the classifier counts as untracked: first character is a
question mark. -/
def untrackedB (l : String) : Bool :=
  match l.data with
  | c :: _ => c == '?'
  | [] => false

/-- A line the classifier counts as a conflict: not untracked, and the
two-character code is one of the seven conflict pairs. -/
def conflictB (l : String) : Bool :=
  match l.data with
  | c0 :: c1 :: _ => c0 != '?' && isConflictCode c0 c1
  | _ => false

/-- A line the classifier counts as staged: not untracked, not a
conflict, and the first character is in A, C, D, M, R. -/
def stagedB (l : String) : Bool :=
  match l.data with
  | c0 :: c1 :: _ => c0 != '?' && !isConflictCode c0 c1 && stagedSwitch c0
  | _ => false

/-- A line the classifier counts as changed: not untracked, not a
conflict, and the second character is in C, D, M, R. -/
def changedB (l : String) : Bool :=
  match l.data with
  | c0 :: c1 :: _ => c0 != '?' && !isConflictCode c0 c1 && changedSwitch c1
  | _ => false

/-- The stash count as the specification words it: lines that are
non-empty AFTER TRIMMING are counted (a line is trimmed to empty
exactly when all its characters are whitespace).  This is the
specification-side reading, kept separate from `stash_count`, which is
the translation of the source. -/
def stash_count_spec (stash_file : Option String) : String :=
  match stash_file with
  | none => Nat.repr 0
  | some c => Nat.repr ((getlineLines c).countP (fun b => !b.data.all wsC))

/-! ### Helper lemmas -/

theorem digitChar_ne_space (m : Nat) : Nat.digitChar m ≠ ' ' := by
  match m with
  | 0 | 1 | 2 | 3 | 4 | 5 | 6 | 7 | 8 | 9 | 10 | 11 | 12 | 13 | 14 | 15 => decide
  | n + 16 =>
    have h16 : ∀ k : Nat, k < 16 → ¬ n + 16 = k := by omega
    unfold Nat.digitChar
    rw [if_neg (h16 0 (by norm_num)), if_neg (h16 1 (by norm_num)),
        if_neg (h16 2 (by norm_num)), if_neg (h16 3 (by norm_num)),
        if_neg (h16 4 (by norm_num)), if_neg (h16 5 (by norm_num)),
        if_neg (h16 6 (by norm_num)), if_neg (h16 7 (by norm_num)),
        if_neg (h16 8 (by norm_num)), if_neg (h16 9 (by norm_num)),
        if_neg (h16 10 (by norm_num)), if_neg (h16 11 (by norm_num)),
        if_neg (h16 12 (by norm_num)), if_neg (h16 13 (by norm_num)),
        if_neg (h16 14 (by norm_num)), if_neg (h16 15 (by norm_num))]
    decide

theorem toDigitsCore_ne_space (b fuel : Nat) :
    ∀ (n : Nat) (ds : List Char), (∀ c ∈ ds, c ≠ ' ') →
    ∀ c ∈ Nat.toDigitsCore b fuel n ds, c ≠ ' ' := by
  induction fuel with
  | zero =>
    intro n ds h
    simpa [Nat.toDigitsCore] using h
  | succ fuel ih =>
    intro n ds h
    rw [Nat.toDigitsCore]
    by_cases hz : n / b = 0
    · simp only [hz, if_pos]
      intro c hc
      rcases List.mem_cons.mp hc with rfl | hmem
      · exact digitChar_ne_space _
      · exact h c hmem
    · simp only [hz, if_neg, ite_false]
      apply ih
      intro c hc
      rcases List.mem_cons.mp hc with rfl | hmem
      · exact digitChar_ne_space _
      · exact h c hmem

theorem natRepr_ne_space (n : Nat) : ∀ c ∈ (Nat.repr n).data, c ≠ ' ' := by
  intro c hc
  exact toDigitsCore_ne_space 10 (n + 1) n [] (by simp) c hc

theorem intRepr_ne_space (i : Int) : ∀ c ∈ (Int.repr i).data, c ≠ ' ' := by
  intro c hc
  cases i with
  | ofNat m => exact natRepr_ne_space m c hc
  | negSucc m =>
    have : (Int.repr (Int.negSucc m)).data = '-' :: (Nat.repr (m + 1)).data := rfl
    rw [this] at hc
    rcases List.mem_cons.mp hc with rfl | hmem
    · decide
    · exact natRepr_ne_space _ c hmem

theorem count_space_zero {s : String} (h : ∀ c ∈ s.data, c ≠ ' ') :
    s.data.count ' ' = 0 :=
  List.count_eq_zero.mpr (fun hm => h _ hm rfl)

theorem data_append (s t : String) : (s ++ t).data = s.data ++ t.data := rfl

theorem firstToken_ne_space (c : String) : ∀ d ∈ (firstToken c).data, d ≠ ' ' := by
  intro d hd
  have hd2 : d ∈ (c.data.dropWhile wsC).takeWhile (fun x => !wsC x) := hd
  have hp : (!wsC d) = true :=
    @List.mem_takeWhile_imp Char (fun x => !wsC x) (c.data.dropWhile wsC) d hd2
  intro he
  subst he
  simp [wsC] at hp

theorem stash_count_count_space (f : Option String) :
    (stash_count f).data.count ' ' = 0 := by
  cases f <;> exact count_space_zero (natRepr_ne_space _)

theorem bit_count_space (b : Bool) : (bit b).data.count ' ' = 0 := by
  cases b <;> decide

theorem rebase_progress_count_space (n l : Option String) :
    (rebase_progress n l).data.count ' ' = 0 := by
  cases n with
  | none =>
    cases l with
    | none => show (("0" : String)).data.count ' ' = 0; decide
    | some lc => show (("0" : String)).data.count ' ' = 0; decide
  | some nc =>
    cases l with
    | none => show (("0" : String)).data.count ' ' = 0; decide
    | some lc =>
      show ((firstToken nc ++ "/" ++ firstToken lc)).data.count ' ' = 0
      rw [data_append, data_append, List.count_append, List.count_append]
      rw [count_space_zero (firstToken_ne_space nc),
          count_space_zero (firstToken_ne_space lc)]
      decide

theorem stoiDigits_no_digits (neg : Bool) {l : List Char}
    (h : ∀ c ∈ l, ¬ c.isDigit = true) : stoiDigits neg l = none := by
  unfold stoiDigits
  cases l with
  | nil => simp
  | cons c r =>
    have hc := h c (List.mem_cons_self c r)
    simp [List.takeWhile_cons, hc]

theorem stoiModel_no_digits {l : List Char}
    (h : ∀ c ∈ l, ¬ c.isDigit = true) : stoiModel l = none := by
  unfold stoiModel
  have hsub : ∀ c ∈ l.dropWhile wsC, c ∈ l :=
    fun c hc => List.Sublist.mem hc (List.dropWhile_sublist wsC)
  cases hl1 : l.dropWhile wsC with
  | nil => exact stoiDigits_no_digits false (by simp)
  | cons c r =>
    have hr : ∀ d ∈ r, ¬ d.isDigit = true := by
      intro d hdm
      exact h d (hsub d (hl1 ▸ List.mem_cons_of_mem c hdm))
    have hcr : ∀ d ∈ c :: r, ¬ d.isDigit = true := by
      intro d hdm
      exact h d (hsub d (hl1 ▸ hdm))
    show (if c = '-' then stoiDigits true r
          else if c = '+' then stoiDigits false r
          else stoiDigits false (c :: r)) = none
    by_cases hm : c = '-'
    · rw [if_pos hm]
      exact stoiDigits_no_digits true hr
    · rw [if_neg hm]
      by_cases hp : c = '+'
      · rw [if_pos hp]
        exact stoiDigits_no_digits false hr
      · rw [if_neg hp]
        exact stoiDigits_no_digits false hcr

theorem statsLoop_cons_ok {s s1 : GStats} {l : String} {rest : List String}
    (h : classify s l = .ok s1) : statsLoop s (l :: rest) = statsLoop s1 rest := by
  show (match classify s l with
        | Except.error e => Except.error e
        | Except.ok s2 => statsLoop s2 rest) = _
  rw [h]

theorem ite_of_false {c : Prop} [Decidable c] (hc : ¬ c) (a b : Nat) :
    (if c then a else b) = b := if_neg hc

theorem ite_of_true {c : Prop} [Decidable c] (hc : c) (a b : Nat) :
    (if c then a else b) = a := if_pos hc

theorem statsLoop_count (lines : List String) :
    ∀ s : GStats, (∀ l ∈ lines, wfLineB l = true) →
    statsLoop s lines = .ok
      { staged := s.staged + lines.countP stagedB,
        conflicts := s.conflicts + lines.countP conflictB,
        changed := s.changed + lines.countP changedB,
        untracked := s.untracked + lines.countP untrackedB } := by
  induction lines with
  | nil =>
    intro s h
    simp [statsLoop]
  | cons l rest ih =>
    intro s h
    have hl := h l (List.mem_cons_self l rest)
    have hrest : ∀ x ∈ rest, wfLineB x = true :=
      fun x hx => h x (List.mem_cons_of_mem _ hx)
    cases hld : l.data with
    | nil => simp [wfLineB, hld] at hl
    | cons c0 rest0 =>
      by_cases hq : c0 = '?'
      · have hcl : classify s l = .ok { s with untracked := s.untracked + 1 } := by
          simp [classify, hld, hq]
        rw [statsLoop_cons_ok hcl, ih _ hrest]
        have hu : untrackedB l = true := by simp [untrackedB, hld, hq]
        have hc : conflictB l = false := by cases rest0 <;> simp [conflictB, hld, hq]
        have hs : stagedB l = false := by cases rest0 <;> simp [stagedB, hld, hq]
        have hch : changedB l = false := by cases rest0 <;> simp [stagedB, changedB, hld, hq]
        simp only [List.countP_cons, hu, hc, hs, hch,
          ite_of_true rfl, ite_of_false (by simp : ¬ (false = true)), if_true, if_false,
          Except.ok.injEq, GStats.mk.injEq]
        refine ⟨by omega, by omega, by omega, by omega⟩
      · cases rest0 with
        | nil => simp [wfLineB, hld, hq] at hl
        | cons c1 rest1 =>
          have hu : untrackedB l = false := by simp [untrackedB, hld, hq]
          by_cases hconf : isConflictCode c0 c1 = true
          · have hcl : classify s l = .ok { s with conflicts := s.conflicts + 1 } := by
              simp [classify, hld, hq, hconf]
            rw [statsLoop_cons_ok hcl, ih _ hrest]
            have hc : conflictB l = true := by simp [conflictB, hld, hq, hconf]
            have hs : stagedB l = false := by simp [stagedB, hld, hq, hconf]
            have hch : changedB l = false := by simp [changedB, hld, hq, hconf]
            simp only [List.countP_cons, hu, hc, hs, hch,
              ite_of_true rfl, ite_of_false (by simp : ¬ (false = true)), if_true, if_false, if_true, if_false,
              Except.ok.injEq, GStats.mk.injEq]
            refine ⟨by omega, by omega, by omega, by omega⟩
          · have hc : conflictB l = false := by simp [conflictB, hld, hq, hconf]
            have hs : stagedB l = stagedSwitch c0 := by
              simp [stagedB, hld, hq, hconf]
            have hch : changedB l = changedSwitch c1 := by
              simp [changedB, hld, hq, hconf]
            by_cases h0 : stagedSwitch c0 = true <;> by_cases h1 : changedSwitch c1 = true
            · have hcl : classify s l = .ok
                  { s with staged := s.staged + 1, changed := s.changed + 1 } := by
                simp [classify, hld, hq, hconf, h0, h1]
              rw [statsLoop_cons_ok hcl, ih _ hrest]
              simp only [List.countP_cons, hu, hc, hs, hch, h0, h1,
                ite_of_true rfl, ite_of_false (by simp : ¬ (false = true)), if_true, if_false, if_true, if_false, if_true, if_false,
                Except.ok.injEq, GStats.mk.injEq]
              refine ⟨by omega, by omega, by omega, by omega⟩
            · have h1f : changedSwitch c1 = false := by simpa using h1
              have hcl : classify s l = .ok { s with staged := s.staged + 1 } := by
                simp [classify, hld, hq, hconf, h0, h1f]
              rw [statsLoop_cons_ok hcl, ih _ hrest]
              simp only [List.countP_cons, hu, hc, hs, hch, h0, h1f,
                ite_of_true rfl, ite_of_false (by simp : ¬ (false = true)), if_true, if_false, if_true, if_false, if_true, if_false,
                Except.ok.injEq, GStats.mk.injEq]
              refine ⟨by omega, by omega, by omega, by omega⟩
            · have h0f : stagedSwitch c0 = false := by simpa using h0
              have hcl : classify s l = .ok { s with changed := s.changed + 1 } := by
                simp [classify, hld, hq, hconf, h0f, h1]
              rw [statsLoop_cons_ok hcl, ih _ hrest]
              simp only [List.countP_cons, hu, hc, hs, hch, h0f, h1,
                ite_of_true rfl, ite_of_false (by simp : ¬ (false = true)), if_true, if_false, if_true, if_false, if_true, if_false,
                Except.ok.injEq, GStats.mk.injEq]
              refine ⟨by omega, by omega, by omega, by omega⟩
            · have h0f : stagedSwitch c0 = false := by simpa using h0
              have h1f : changedSwitch c1 = false := by simpa using h1
              have hcl : classify s l = .ok s := by
                simp [classify, hld, hq, hconf, h0f, h1f]
              rw [statsLoop_cons_ok hcl, ih _ hrest]
              simp only [List.countP_cons, hu, hc, hs, hch, h0f, h1f,
                ite_of_true rfl, ite_of_false (by simp : ¬ (false = true)), if_true, if_false, if_true, if_false, if_true, if_false,
                Except.ok.injEq, GStats.mk.injEq]
              refine ⟨by omega, by omega, by omega, by omega⟩

theorem stashLoop_count (ls : List String) :
    ∀ cnt : Nat, stashLoop cnt ls = cnt + ls.countP (fun b => b != "") := by
  induction ls with
  | nil =>
    intro cnt
    simp [stashLoop]
  | cons b rest ih =>
    intro cnt
    by_cases hb : b = ""
    · subst hb
      simp [stashLoop, ih, List.countP_cons]
    · simp only [stashLoop, if_pos hb, ih, List.countP_cons]
      have : (b != "") = true := by simp [hb]
      rw [this]
      simp
      omega

theorem fgrLoop_find (fs : List String → Bool) :
    ∀ r : List String,
    fgrLoop fs r = (firstGitDir fs (chainRev r)).map (· ++ [".git"]) := by
  intro r
  induction r with
  | nil => rfl
  | cons x rest ih =>
    show (if fs ((x :: rest).reverse ++ [".git"])
          then some ((x :: rest).reverse ++ [".git"])
          else fgrLoop fs rest) = _
    rw [chainRev, firstGitDir]
    by_cases hfs : fs ((x :: rest).reverse ++ [".git"]) = true
    · rw [if_pos hfs, if_pos hfs]
      rfl
    · rw [if_neg hfs, if_neg hfs, ih]

theorem chainRev_not_nil : ∀ r : List String, [] ∉ chainRev r := by
  intro r
  induction r with
  | nil => simp [chainRev]
  | cons x rest ih =>
    simp [chainRev, ih]

theorem space_count_one : ((" " : String)).data.count ' ' = 1 := by
  decide

/-! ### Claim theorems -/

/-- C1, counterexample: on the detached-head header with a readable
head-marker file, `parse_branch` sets the local flag to FALSE (C++
`result.local = 0` at lib.cc line 197), not true as claimed; the branch
is the first token of the head file. -/
theorem parse_branch_detached_counterexample :
    parse_branch "## HEAD (no branch)" (some "a1b2c3d") =
      .ok { branch := "a1b2c3d", upstream := "", localFlag := false } := by
  decide

/-- C1 (amended): for every header line whose bracket-stripped content
contains "(no branch)" and no "..." separator, `parse_branch` sets the
local flag to false (not true) and sets the branch to the first
whitespace-delimited token of the head-marker file; it fails with
IOError when that file cannot be read. -/
theorem parse_branch_detached (line : String) (hf : Option String)
    (hlen : 3 ≤ line.data.length)
    (hdots : findSub ("...".data) (headerContent line) = none)
    (hnb : containsSub ("(no branch)".data) (headerContent line) = true) :
    parse_branch line hf =
      match hf with
      | some c => .ok { branch := firstToken c, upstream := "", localFlag := false }
      | none => .error .ioError := by
  simp only [parse_branch, if_neg (show ¬ line.data.length < 3 by omega), hdots, hnb, if_true]

/-- C1, witness for `parse_branch_detached` at a concrete header and
head-file content. -/
theorem parse_branch_detached_witness :
    parse_branch "## HEAD (no branch)" (some " deadbeef refs") =
      .ok { branch := "deadbeef", upstream := "", localFlag := false } :=
  (parse_branch_detached "## HEAD (no branch)" (some " deadbeef refs")
    (by decide) (by decide) (by decide)).trans (by decide)

/-- C2: on any list of well-formed status lines, `parse_stats` visits
each line once and returns exactly the per-line tallies: untracked
lines are those starting with a question mark; conflict lines are the
non-untracked ones whose two-character code is one of the seven
conflict pairs; staged (resp. changed) lines are the remaining ones
whose first (resp. second) character is in the staged (resp. changed)
switch (one line may be both staged and changed, and untracked,
conflict and the staged/changed pair exclude each other by
construction of the predicates). -/
theorem parse_stats_characterization (lines : List String)
    (h : ∀ l ∈ lines, wfLineB l = true) :
    parse_stats lines = .ok
      { staged := lines.countP stagedB,
        conflicts := lines.countP conflictB,
        changed := lines.countP changedB,
        untracked := lines.countP untrackedB } := by
  have hcnt := statsLoop_count lines {} h
  simpa [parse_stats] using hcnt

/-- C2, witness at a concrete line list exercising all four buckets. -/
theorem parse_stats_characterization_witness :
    parse_stats ["A  f", "MM g", "?? h", "UU i", " M j"] =
      .ok { staged := 2, conflicts := 1, changed := 2, untracked := 1 } := by
  rw [parse_stats_characterization _ (by decide)]
  decide

/-- C3: the tracking header parses to branch "main", upstream
"origin/main", local flag false, ahead 2 and behind 3 (the head-marker
file is not consulted on this path). -/
theorem header_tracking_example :
    parse_branch "## main...origin/main [ahead 2, behind 3]" none =
      .ok { branch := "main", upstream := "origin/main", localFlag := false } ∧
    parse_remote "## main...origin/main [ahead 2, behind 3]" =
      .ok { ahead := 2, behind := 3 } :=
  ⟨by decide, by decide⟩

/-- C4, counterexample: a header whose fallback branch name contains a
space ("## a b" hits the verbatim-branch case) makes the output split
into 13 space-separated fields, not 12. -/
theorem aggregator_fields_counterexample :
    current_gitstatus {} ["## a b"] = .ok "a b 0 0 0 0 0 0 0 1  0 0" ∧
    fieldCount "a b 0 0 0 0 0 0 0 1  0 0" = 13 :=
  ⟨by decide, by decide⟩

/-- C4 (amended): whenever the aggregator succeeds and the parsed
branch and upstream contain no space character, the output line splits
at spaces into exactly 12 fields, in the fixed order of the source
(branch, ahead, behind, staged, conflicts, changed, untracked,
stash count, local flag as 0/1, upstream, merge flag as 0/1, rebase
progress); a space inside the branch (or upstream) breaks the 12-field
property, and an empty upstream yields an empty tenth field. -/
theorem aggregator_fields (fs : FS) (l0 : String) (rest : List String)
    (out : String) (info : GBranch)
    (hout : current_gitstatus fs (l0 :: rest) = .ok out)
    (hinfo : parse_branch l0 fs.head = .ok info)
    (hbr : info.branch.data.count ' ' = 0)
    (hup : info.upstream.data.count ' ' = 0) :
    fieldCount out = 12 := by
  simp only [current_gitstatus, hinfo] at hout
  cases hrem : parse_remote l0 with
  | error e => simp [hrem] at hout
  | ok remote =>
    cases hst : parse_stats (l0 :: rest) with
    | error e => simp [hrem, hst] at hout
    | ok stats =>
      simp only [hrem, hst, Except.ok.injEq] at hout
      subst hout
      simp only [fieldCount, data_append, List.count_append, hbr, hup,
        space_count_one,
        count_space_zero (intRepr_ne_space remote.ahead),
        count_space_zero (intRepr_ne_space remote.behind),
        count_space_zero (natRepr_ne_space stats.staged),
        count_space_zero (natRepr_ne_space stats.conflicts),
        count_space_zero (natRepr_ne_space stats.changed),
        count_space_zero (natRepr_ne_space stats.untracked),
        stash_count_count_space, bit_count_space, rebase_progress_count_space]
      decide

/-- C4, witness for `aggregator_fields` on a concrete run. -/
theorem aggregator_fields_witness :
    fieldCount "m 2 3 0 0 0 1 0 0 o/m 0 0" = 12 :=
  aggregator_fields {} "## m...o/m [ahead 2, behind 3]" ["?? f"]
    "m 2 3 0 0 0 1 0 0 o/m 0 0" { branch := "m", upstream := "o/m", localFlag := false }
    (by decide) (by decide) (by decide) (by decide)

/-- C5: absence of optional auxiliary state never raises an error and
yields the explicit default: missing stash log gives count "0", missing
merge marker gives flag false, a missing next or last file gives rebase
progress "0", and a header with no " [" tracking bracket gives
ahead = 0 and behind = 0. -/
theorem optional_state_defaults :
    stash_count none = "0" ∧
    merge_flag none = false ∧
    (∀ l : Option String, rebase_progress none l = "0") ∧
    (∀ n : Option String, rebase_progress n none = "0") ∧
    (∀ line : String, findSub (" [".data) line.data = none →
      parse_remote line = .ok { ahead := 0, behind := 0 }) := by
  refine ⟨by decide, rfl, fun l => by cases l <;> rfl, fun n => by cases n <;> rfl,
    fun line h => ?_⟩
  simp only [parse_remote, h]

/-- C5, witness: the bracket-free conjunct at a concrete header. -/
theorem optional_state_defaults_witness :
    parse_remote "## main" = .ok { ahead := 0, behind := 0 } :=
  optional_state_defaults.2.2.2.2 "## main" (by decide)

/-- C6: when the bracket check passes (a " [" occurs and the line ends
in a closing bracket) and the bracket content contains "ahead" but the
accumulated part holds no digit character, `parse_remote` fails with
ParseError instead of defaulting to 0. -/
theorem parse_remote_ahead_no_digits (line : String) (i : Nat)
    (hf : findSub (" [".data) line.data = some i)
    (hb : line.data.getLast? = some ']')
    (ha : containsSub ("ahead".data) (line.data.drop (i + 2)) = true)
    (hd : ∀ c ∈ (accum ((line.data.drop (i + 2)).drop 6)).1, ¬ c.isDigit = true) :
    parse_remote line = .error .parseError := by
  have hne : line.data.drop (i + 2) ≠ [] := by
    intro hnil
    rw [hnil] at ha
    simp [containsSub, findSub] at ha
  have hstoi : stoiModel (accum ((line.data.drop (i + 2)).drop 6)).1 = none :=
    stoiModel_no_digits hd
  simp only [parse_remote, hf, hb, hstoi, if_pos (And.intro hne ha)]
  simp

/-- C6, witness: bracket content "ahead]" accumulates no digits. -/
theorem parse_remote_ahead_no_digits_witness :
    parse_remote "## b [ahead]" = .error .parseError :=
  parse_remote_ahead_no_digits "## b [ahead]" 4
    (by decide) (by decide) (by decide) (by decide)

/-- C7, counterexample: a stash log consisting of one all-whitespace
line is counted by the code (no trimming happens), while the claimed
trimming behaviour would not count it. -/
theorem stash_count_counterexample :
    stash_count (some " \n") = "1" ∧ stash_count_spec (some " \n") = "0" :=
  ⟨by decide, by decide⟩

/-- C7 (amended): `stash_count` counts the getline-extracted lines that
are non-empty VERBATIM (no trimming: an all-whitespace line is
counted); a missing file yields "0" without error, and a trailing blank
line is not counted (spec example: three non-blank lines plus one
trailing blank line give "3"). -/
theorem stash_count_no_trim :
    (∀ c : String, stash_count (some c) =
      Nat.repr ((getlineLines c).countP (fun b => b != ""))) ∧
    stash_count none = "0" ∧
    stash_count (some "a\nb\nc\n\n") = "3" := by
  refine ⟨fun c => ?_, by decide, by decide⟩
  show Nat.repr (stashLoop 0 (getlineLines c)) = _
  rw [stashLoop_count, Nat.zero_add]

/-- C8: when both next and last files of the rebase directory are
readable, the progress is first token of next, "/", first token of
last (e.g. contents "2" and "5" give "2/5"); if either is missing the
progress is the literal "0". -/
theorem rebase_progress_spec :
    (∀ n l : String, rebase_progress (some n) (some l) =
      firstToken n ++ "/" ++ firstToken l) ∧
    rebase_progress (some "2\n") (some "5\n") = "2/5" ∧
    (∀ l : Option String, rebase_progress none l = "0") ∧
    (∀ n : Option String, rebase_progress n none = "0") :=
  ⟨fun n l => rfl, by decide, fun l => by cases l <;> rfl, fun n => by cases n <;> rfl⟩

/-- C9, counterexample: the filesystem root is never examined: starting
at the root with ".git" existing directly under it, `find_git_root`
still fails with NotFound. -/
theorem find_git_root_counterexample :
    find_git_root (fun p => p == [".git"]) [] = none ∧
    (([] ++ [".git"] : List String) == [".git"]) = true :=
  ⟨rfl, by decide⟩

/-- C9 (amended): the resolver checks the start directory and each
ancestor STRICTLY before the filesystem root, in order, and returns the
".git" entry path of the first one containing such an entry; reaching
the root (or starting there) fails with NotFound, the root itself never
being checked. -/
theorem find_git_root_chain (fs : List String → Bool) (cwd : List String) :
    find_git_root fs cwd = (firstGitDir fs (chain cwd)).map (· ++ [".git"]) ∧
    find_git_root fs [] = none ∧
    [] ∉ chain cwd :=
  ⟨fgrLoop_find fs cwd.reverse, rfl, chainRev_not_nil cwd.reverse⟩

/-- C10: `parse_stats` reads the first character of every line and the
second character of every line not starting with a question mark: on
lists of well-formed lines it is total (returns some tally), while a
list containing an empty line, or a one-character line not starting
with a question mark, raises the out-of-range error. -/
theorem parse_stats_bounds :
    (∀ lines : List String, (∀ l ∈ lines, wfLineB l = true) →
      ∃ s : GStats, parse_stats lines = .ok s) ∧
    parse_stats ["MM x", ""] = .error .outOfRange ∧
    parse_stats ["MM x", "A"] = .error .outOfRange := by
  refine ⟨fun lines h => ?_, by decide, by decide⟩
  exact ⟨_, statsLoop_count lines {} h⟩

/-- C10, witness for the totality conjunct at a concrete list. -/
theorem parse_stats_bounds_witness :
    ∃ s : GStats, parse_stats ["MM a", "?"] = .ok s :=
  parse_stats_bounds.1 ["MM a", "?"] (by decide)

end Gstat
